import Mathlib

/-
Verification of the protocol/command engine of the lionelPY repository against its
natural-language specification.  Python sources are shallowly embedded: byte strings
become `List Nat` (each element a byte value), raised exceptions become `Option`/`Except`
`none`/`error` results, and the two listener/dispatcher thread loops become explicit
functions of their queue contents (single-pass, fuel-indexed where the source loop can
fail to terminate).
-/

namespace LionelPY

/-! ## PDI sentinels and `PdiReq._calculate_checksum` (src/pdi/pdi_req.py) -/

/-- Modelled from the spec: `src/pdi/constants.py`, which defines the sentinel bytes, is
not among the sources; the spec (sections 4.2 and 6) describes SOP, STF and EOP only as
three distinct reserved single-byte sentinels, writing their values as `0x??`.  We fix
the concrete LCS PDI values; the results below depend only on the three values being
distinct bytes with `PDI_STF` not congruent to 0 mod 256. -/
def PDI_SOP : Nat := 0xD1

/-- The reserved stuff byte, see `PDI_SOP`. -/
def PDI_STF : Nat := 0xDE

/-- The end-of-packet sentinel, see `PDI_SOP`. -/
def PDI_EOP : Nat := 0xDF

/-- The membership test `b in [PDI_SOP, PDI_STF, PDI_EOP]` used by
`PdiReq._calculate_checksum`. -/
def isSentinel (b : Nat) : Bool :=
  b == PDI_SOP || b == PDI_STF || b == PDI_EOP

/-- One iteration of the `for b in data` loop of `PdiReq._calculate_checksum`
(src/pdi/pdi_req.py lines 64-72).  The accumulator carries the output byte stream and the
running checksum sum: the byte is always added to the sum; a sentinel-valued byte
additionally adds `PDI_STF` to the sum and is either preceded by an emitted stuff byte
(`addStf = true`) or skipped entirely (`addStf = false`, the `continue`). -/
def checksumStep (addStf : Bool) (acc : List Nat × Nat) (b : Nat) : List Nat × Nat :=
  let cs := acc.2 + b
  if isSentinel b then
    let cs2 := cs + PDI_STF
    if addStf then (acc.1 ++ [PDI_STF, b], cs2) else (acc.1, cs2)
  else
    (acc.1 ++ [b], cs)

/-- Python's `0xff & (0 - check_sum)`: the low byte of the two's-complement negation. -/
def negByte (cs : Nat) : Nat := (256 - cs % 256) % 256

/-- `PdiReq._calculate_checksum(data, add_stf)` (src/pdi/pdi_req.py lines 60-75): returns
the processed byte stream (stuffed when `add_stf` is true, destuffed otherwise) together
with the checksum byte. -/
def calculateChecksum (data : List Nat) (addStf : Bool) : List Nat × Nat :=
  let r := data.foldl (checksumStep addStf) ([], 0)
  (r.1, negByte r.2)

/-- The stuffed byte stream produced by `_calculate_checksum(body, add_stf=True)`, as used
by the various `as_bytes` encoders. -/
def stuffBytes (body : List Nat) : List Nat := (calculateChecksum body true).1

/-- The destuffed byte stream produced by `_calculate_checksum(data, add_stf=False)`, as
used by `PdiReq.__init__` on received frames. -/
def destuffBytes (data : List Nat) : List Nat := (calculateChecksum data false).1

/-- The number of sentinel-valued bytes in a body: each contributes one extra `PDI_STF`
summand to the checksum accumulator. -/
def countSentinels (l : List Nat) : Nat := (l.filter isSentinel).length

/-- The byte-path of `PdiReq.__init__` (src/pdi/pdi_req.py lines 36-54): check that the
first byte is SOP and the last EOP, destuff the interior `data[1:-2]`, recompute the
checksum over it and compare with the transmitted `data[-2]`.  `none` models the raised
`ValueError` (including the index error on a stream shorter than two bytes); `some`
returns the destuffed interior stored in `self._data`. -/
def pdiInit (data : List Nat) : Option (List Nat) :=
  if data.length < 2 then none
  else
    let first := data.headD 0
    let lastByte := data.getLastD 0
    let recvChecksum := data.dropLast.getLastD 0
    let interior := ((data.drop 1).dropLast).dropLast
    if first = PDI_SOP ∧ lastByte = PDI_EOP then
      let r := calculateChecksum interior false
      if recvChecksum = r.2 then some r.1 else none
    else none

/-! ### Checksum accumulator characterisation -/

theorem checksum_foldl_snd (addStf : Bool) (data : List Nat) (s : List Nat) (c : Nat) :
    (data.foldl (checksumStep addStf) (s, c)).2
      = c + data.sum + PDI_STF * countSentinels data := by
  induction data generalizing s c with
  | nil => simp [countSentinels]
  | cons b t ih =>
    by_cases hb : isSentinel b
    · cases addStf <;>
        simp only [List.foldl_cons, checksumStep, hb, if_true, if_false, Bool.false_eq_true,
          ite_false, ite_true] <;>
        rw [ih] <;>
        simp [countSentinels, List.filter_cons, hb] <;> ring
    · simp only [List.foldl_cons, checksumStep, hb, Bool.false_eq_true, ite_false]
      rw [ih]
      simp [countSentinels, List.filter_cons, hb]
      ring

theorem checksum_foldl_fst_true (data : List Nat) (s : List Nat) (c : Nat) :
    (data.foldl (checksumStep true) (s, c)).1
      = s ++ data.flatMap (fun b => if isSentinel b then [PDI_STF, b] else [b]) := by
  induction data generalizing s c with
  | nil => simp
  | cons b t ih =>
    by_cases hb : isSentinel b <;>
      simp only [List.foldl_cons, checksumStep, hb, if_true, ite_false, ite_true,
        Bool.false_eq_true, List.flatMap_cons] <;>
      rw [ih] <;> simp

theorem checksum_foldl_fst_false (data : List Nat) (s : List Nat) (c : Nat) :
    (data.foldl (checksumStep false) (s, c)).1
      = s ++ data.filter (fun b => !isSentinel b) := by
  induction data generalizing s c with
  | nil => simp
  | cons b t ih =>
    by_cases hb : isSentinel b <;>
      simp only [List.foldl_cons, checksumStep, hb, if_true, ite_false, ite_true,
        Bool.false_eq_true, List.filter_cons] <;>
      rw [ih] <;> simp [hb]

/-- Destuffing removes every sentinel-valued byte of its input: both the inserted stuff
bytes and the data bytes they were escorting. -/
theorem destuff_stuff_filter (body : List Nat) :
    destuffBytes (stuffBytes body) = body.filter (fun b => !isSentinel b) := by
  have hstf : isSentinel PDI_STF = true := rfl
  unfold destuffBytes stuffBytes calculateChecksum
  simp only [checksum_foldl_fst_true, checksum_foldl_fst_false, List.nil_append]
  induction body with
  | nil => rfl
  | cons b t ih =>
    rw [List.flatMap_cons, List.filter_append, List.filter_cons]
    by_cases hb : isSentinel b
    · rw [if_pos hb]
      rw [show List.filter (fun x => !isSentinel x) [PDI_STF, b] = [] from by
        simp [List.filter_cons, hstf, hb]]
      rw [List.nil_append, ih]
      simp [hb]
    · rw [if_neg hb]
      rw [show List.filter (fun x => !isSentinel x) [b] = [b] from by
        simp [List.filter_cons, hb]]
      rw [List.singleton_append, ih]
      simp [hb]

/-! ### Claims C1 and C2 -/

/-- C1 counterexample: for the single-byte body `[PDI_SOP]` the checksum byte produced by
`_calculate_checksum` is not the negation mod 256 of the sum of the body bytes — the code
also folds `PDI_STF` into the running sum for the colliding byte — and
`(sum of body bytes + checksum) mod 256` is 34, not 0. -/
theorem c1_checksum_unstuffed_cex :
    (calculateChecksum [PDI_SOP] true).2 ≠ negByte (List.sum [PDI_SOP])
  ∧ (List.sum [PDI_SOP] + (calculateChecksum [PDI_SOP] true).2) % 256 = 34 := by
  decide

/-- C1 (amended): the checksum byte of `_calculate_checksum` is the two's-complement
negation of the sum of the body bytes plus `PDI_STF` once per sentinel-valued body byte,
so `(sum(body) + PDI_STF * collisions + checksum) mod 256 = 0`; for bodies containing no
sentinel-valued byte this reduces to the claimed `(sum(body) + checksum) mod 256 = 0`;
and `PdiReq.__init__` rejects (raises, modelled as `none`) any received frame whose
transmitted checksum byte `data[-2]` differs from the same recomputation over the received
interior bytes `data[1:-2]`. -/
theorem c1_checksum_amended :
    (∀ (body : List Nat) (addStf : Bool),
      (body.sum + PDI_STF * countSentinels body + (calculateChecksum body addStf).2) % 256
        = 0)
  ∧ (∀ (body : List Nat) (addStf : Bool), countSentinels body = 0 →
      (body.sum + (calculateChecksum body addStf).2) % 256 = 0)
  ∧ (∀ data : List Nat,
      data.dropLast.getLastD 0
          ≠ (calculateChecksum (((data.drop 1).dropLast).dropLast) false).2 →
      pdiInit data = none) := by
  have h1 : ∀ (body : List Nat) (addStf : Bool),
      (body.sum + PDI_STF * countSentinels body + (calculateChecksum body addStf).2) % 256
        = 0 := by
    intro body addStf
    have h2 : (calculateChecksum body addStf).2
        = negByte ((body.foldl (checksumStep addStf) ([], 0)).2) := rfl
    rw [h2, checksum_foldl_snd, Nat.zero_add]
    unfold negByte
    generalize body.sum + PDI_STF * countSentinels body = s
    omega
  refine ⟨h1, ?_, ?_⟩
  · intro body addStf h
    have h3 := h1 body addStf
    rw [h] at h3
    simpa using h3
  · intro data h
    unfold pdiInit
    by_cases hl : data.length < 2
    · rw [if_pos hl]
    · rw [if_neg hl]
      by_cases hse : data.headD 0 = PDI_SOP ∧ data.getLastD 0 = PDI_EOP
      · simp only [if_pos hse]
        rw [if_neg h]
      · simp only [if_neg hse]

/-- C1 witness: the amended theorem applied at concrete inputs — the weighted invariant
for the body `[PDI_SOP, 2]`, the collision-free form for the body `[1, 2]`, and rejection
of the frame `[PDI_SOP, 5, 0, PDI_EOP]` whose transmitted checksum byte 0 is wrong. -/
theorem c1_checksum_amended_witness :
    ((List.sum [PDI_SOP, 2] + PDI_STF * countSentinels [PDI_SOP, 2]
        + (calculateChecksum [PDI_SOP, 2] true).2) % 256 = 0)
  ∧ (countSentinels [1, 2] = 0
      ∧ (List.sum [1, 2] + (calculateChecksum [1, 2] false).2) % 256 = 0)
  ∧ ([PDI_SOP, 5, 0, PDI_EOP].dropLast.getLastD 0
        ≠ (calculateChecksum ((([PDI_SOP, 5, 0, PDI_EOP].drop 1).dropLast).dropLast)
            false).2
      ∧ pdiInit [PDI_SOP, 5, 0, PDI_EOP] = none) :=
  ⟨c1_checksum_amended.1 [PDI_SOP, 2] true,
   ⟨by decide, c1_checksum_amended.2.1 [1, 2] false (by decide)⟩,
   ⟨by decide, c1_checksum_amended.2.2 [PDI_SOP, 5, 0, PDI_EOP] (by decide)⟩⟩

/-- C2: at the failing input `body = [PDI_SOP]`, stuffing produces `[PDI_STF, PDI_SOP]`
but destuffing that stream produces `[]`, not the original body: the `add_stf=False` path
of `_calculate_checksum` executes `continue` for every sentinel-valued byte, so it drops
the escaped data byte along with the stuff byte that escorted it (the general shape is
`destuff_stuff_filter`). -/
theorem c2_roundtrip_fails :
    stuffBytes [PDI_SOP] = [PDI_STF, PDI_SOP]
  ∧ destuffBytes (stuffBytes [PDI_SOP]) = []
  ∧ destuffBytes (stuffBytes [PDI_SOP]) ≠ [PDI_SOP] := by
  decide

/-! ## `PingReq` encode and `PdiReq.from_bytes` (claim C8) -/

/-- Modelled from the spec: the `PdiCommand` enum lives in the missing
`src/pdi/constants.py`; the spec names a PING command with a single command-code byte but
does not give its value, so we fix an arbitrary byte distinct from the sentinels. -/
def PDI_PING : Nat := 0x29

/-- The device kinds that `PdiReq.from_bytes` dispatches on (src/pdi/pdi_req.py
lines 21-34 and the `DEVICE_TO_REQ_MAP` registrations). -/
inductive PdiDevice
  | ping
  | ser2
  | irda
  | tmcc
  | base
  | allGet
  deriving DecidableEq

/-- Modelled from the spec: the command-code byte to device-kind mapping implied by
`PdiCommand(data[1])` plus `DEVICE_TO_REQ_MAP`; only the PING code is fixed here, any
unknown code raising (modelled as `none`). -/
def pdiDeviceOf (b : Nat) : Option PdiDevice :=
  if b = PDI_PING then some PdiDevice.ping else none

/-- `PingReq.as_bytes` (src/pdi/pdi_req.py lines 339-345): the command byte is stuffed
and checksummed, then wrapped in SOP/EOP; no device-id or action byte is emitted. -/
def pingReqAsBytes : List Nat :=
  let r := calculateChecksum [PDI_PING] true
  [PDI_SOP] ++ r.1 ++ [r.2] ++ [PDI_EOP]

/-- `PdiReq.from_bytes` (src/pdi/pdi_req.py lines 21-34) composed with the subtype
constructor and `PdiReq.__init__` validation: look up the device kind of `data[1]`, then
validate markers and checksum, returning the kind and the destuffed interior. -/
def pdiFromBytes (data : List Nat) : Option (PdiDevice × List Nat) :=
  match pdiDeviceOf (data.getD 1 0) with
  | none => none
  | some dev =>
    match pdiInit data with
    | none => none
    | some interior => some (dev, interior)

/-- C8: the encoded PING request is exactly the four bytes SOP, PING code, checksum, EOP
(no device-id or action bytes), and `from_bytes` decodes it back to a PING request. -/
theorem c8_ping_roundtrip :
    pingReqAsBytes = [PDI_SOP, PDI_PING, negByte PDI_PING, PDI_EOP]
  ∧ pingReqAsBytes.length = 4
  ∧ pdiFromBytes pingReqAsBytes = some (PdiDevice.ping, [PDI_PING]) := by
  decide

/-! ## `PdiListener.run` framing loop (claim C3, src/pdi/pdi_listener.py lines 111-152) -/

/-- One pass of the inner `while dq_len > 0` loop of `PdiListener.run`
(src/pdi/pdi_listener.py lines 119-149), fuel-indexed because the loop need not
terminate.  `dq` is the byte deque, `dqLen` the snapshot counter `dq_len` (an `Int`
because the code assigns it `-1` to leave the loop when no EOP is buffered yet), and
`emitted` accumulates the frames handed to `PdiReq.from_bytes` and the dispatcher.
`none` means the fuel ran out with the loop still running; `some (dq, frames)` is the
deque and emission list at loop exit.  Faithful branch order: head not SOP (or an EOP at
position <= 1) pops one byte; no EOP in the deque sets `dq_len = -1`; an EOP candidate
whose preceding byte is `PDI_STF` executes a bare `continue`, changing nothing. -/
def listenerPass : Nat → List Nat → Int → List (List Nat) →
    Option (List Nat × List (List Nat))
  | 0, _, _, _ => none
  | fuel + 1, dq, dqLen, emitted =>
    if dqLen ≤ 0 then some (dq, emitted)
    else
      match dq with
      | [] => some (dq, emitted)
      | b :: rest =>
        if b = PDI_SOP then
          match dq.findIdx? (fun x => x == PDI_EOP) with
          | none => listenerPass fuel dq (-1) emitted
          | some eopPos =>
            if 0 < (eopPos : Int) - 1 then
              if dq.getD (eopPos - 1) 0 = PDI_STF then
                listenerPass fuel dq dqLen emitted
              else
                listenerPass fuel (dq.drop (eopPos + 1)) (dqLen - ((eopPos : Int) + 1))
                  (emitted ++ [dq.take (eopPos + 1)])
            else
              listenerPass fuel rest (dqLen - 1) emitted
        else
          listenerPass fuel rest (dqLen - 1) emitted

/-- One wake-up of the `PdiListener.run` consumer: `dq_len = len(self._deque)` then the
inner loop. -/
def runListenerPass (fuel : Nat) (dq : List Nat) :
    Option (List Nat × List (List Nat)) :=
  listenerPass fuel dq (dq.length : Int) []

/-- C3: on the buffered bytes `SOP, STF, EOP` — an EOP candidate immediately preceded by
a stuff byte — the framing loop re-finds the same candidate forever: for every amount of
fuel the pass is still running (`none`), having emitted nothing.  The code detects the
stuffed candidate (printing "unhandled stuff-it") but its `continue` does not advance
the scan, so the loop never terminates, contradicting the claimed behaviour. -/
theorem c3_stuffed_eop_candidate_hangs (fuel : Nat) :
    runListenerPass fuel [PDI_SOP, PDI_STF, PDI_EOP] = none := by
  have key : ∀ n, listenerPass n [PDI_SOP, PDI_STF, PDI_EOP] 3 [] = none := by
    intro n
    induction n with
    | zero => rfl
    | succ m ih =>
      rw [show listenerPass (m + 1) [PDI_SOP, PDI_STF, PDI_EOP] 3 []
            = listenerPass m [PDI_SOP, PDI_STF, PDI_EOP] 3 [] from by
        simp [listenerPass, PDI_SOP, PDI_STF, PDI_EOP, List.findIdx?]]
      exact ih
  exact key fuel

/-! ### The framing loop on a healthy stream

Supporting development: on an input of the shape
`garbage ++ SOP :: interior ++ EOP :: garbage` whose interior hides no EOP candidate, the
pass terminates having handed exactly the one frame to the decie and discarded all the
garbage. -/

theorem findIdx_eop_aux (mid : List Nat) (rest : List Nat)
    (h : ∀ b ∈ mid, b ≠ PDI_EOP) :
    ∀ i : Nat, List.findIdx? (fun x => x == PDI_EOP) (mid ++ PDI_EOP :: rest) i
      = some (mid.length + i) := by
  induction mid with
  | nil =>
    intro i
    rw [List.nil_append, List.findIdx?_cons]
    simp
  | cons b t ih =>
    intro i
    have hb : (b == PDI_EOP) = false := by
      simp only [beq_eq_false_iff_ne, ne_eq]
      exact h b (List.mem_cons_self _ _)
    rw [List.cons_append, List.findIdx?_cons, hb]
    simp only [Bool.false_eq_true, if_false]
    rw [ih (fun x hx => h x (List.mem_cons_of_mem _ hx)) (i + 1)]
    congr 1
    simp [List.length_cons]
    omega

theorem pass_skip (b : Nat) (hb : ¬(b = PDI_SOP)) (rest : List Nat)
    (em : List (List Nat)) (f : Nat) (L : Int) (hL : 0 < L) :
    listenerPass (f + 1) (b :: rest) L em = listenerPass f rest (L - 1) em := by
  simp only [listenerPass]
  rw [if_neg (not_le.mpr hL)]
  rw [if_neg hb]

theorem pass_garbage (g : List Nat) (hg : ∀ b ∈ g, b ≠ PDI_SOP) (rest : List Nat)
    (em : List (List Nat)) (f : Nat) :
    listenerPass (g.length + f) (g ++ rest) ((g.length : Int) + (rest.length : Int)) em
      = listenerPass f rest (rest.length : Int) em := by
  induction g with
  | nil => simp
  | cons b t ih =>
    have hb := hg b (List.mem_cons_self _ _)
    rw [List.cons_append]
    rw [show (b :: t).length + f = (t.length + f) + 1 from by
      simp [List.length_cons]; omega]
    have hL : (0 : Int) < ((b :: t).length : Int) + (rest.length : Int) := by
      simp only [List.length_cons]
      omega
    rw [pass_skip b hb (t ++ rest) em (t.length + f) _ hL]
    rw [show ((b :: t).length : Int) + (rest.length : Int) - 1
        = (t.length : Int) + (rest.length : Int) from by
      simp only [List.length_cons]
      push_cast
      ring]
    exact ih (fun x hx => hg x (List.mem_cons_of_mem _ hx))

theorem pass_frame (mid rest : List Nat) (em : List (List Nat)) (f : Nat) (L : Int)
    (hL : 0 < L) (hmid : mid ≠ []) (hmidEop : ∀ b ∈ mid, b ≠ PDI_EOP)
    (hlast : mid.getD (mid.length - 1) 0 ≠ PDI_STF) :
    listenerPass (f + 1) (PDI_SOP :: (mid ++ PDI_EOP :: rest)) L em
      = listenerPass f rest (L - ((mid.length : Int) + 2))
          (em ++ [PDI_SOP :: (mid ++ [PDI_EOP])]) := by
  have hmlen : 0 < mid.length := List.length_pos.mpr hmid
  have hfind : List.findIdx? (fun x => x == PDI_EOP)
      (PDI_SOP :: (mid ++ PDI_EOP :: rest)) 0 = some (mid.length + 1) := by
    have h2 := findIdx_eop_aux (PDI_SOP :: mid) rest
      (by
        intro b hbm
        rcases List.mem_cons.mp hbm with h3 | h3
        · rw [h3]; decide
        · exact hmidEop b h3) 0
    rw [List.cons_append] at h2
    simpa [List.length_cons, Nat.add_comm] using h2
  have hget : (PDI_SOP :: (mid ++ PDI_EOP :: rest)).getD (mid.length + 1 - 1) 0
      = mid.getD (mid.length - 1) 0 := by
    rw [show mid.length + 1 - 1 = (mid.length - 1) + 1 from by omega]
    rw [List.getD_cons_succ]
    exact List.getD_append _ _ _ _ (by omega)
  have htake : (PDI_SOP :: (mid ++ PDI_EOP :: rest)).take (mid.length + 1 + 1)
      = PDI_SOP :: (mid ++ [PDI_EOP]) := by
    rw [show mid.length + 1 + 1 = (mid.length + 1) + 1 from rfl]
    rw [List.take_succ_cons]
    rw [show mid.length + 1 = mid.length + 1 from rfl]
    rw [List.take_append 1]
    simp
  have hdrop : (PDI_SOP :: (mid ++ PDI_EOP :: rest)).drop (mid.length + 1 + 1) = rest := by
    rw [show mid.length + 1 + 1 = (mid.length + 1) + 1 from rfl]
    rw [List.drop_succ_cons]
    rw [List.drop_append 1]
    simp
  simp only [listenerPass]
  rw [if_neg (not_le.mpr hL)]
  rw [if_pos trivial, hfind]
  try dsimp only
  rw [if_pos (show (0 : Int) < ((mid.length + 1 : Nat) : Int) - 1 from by push_cast; omega)]
  rw [hget]
  rw [if_neg hlast]
  rw [htake, hdrop]
  rw [show L - (((mid.length + 1 : Nat) : Int) + 1) = L - ((mid.length : Int) + 2) from by
    push_cast
    ring]

theorem pass_garbage_end (g : List Nat) (hg : ∀ b ∈ g, b ≠ PDI_SOP)
    (em : List (List Nat)) :
    listenerPass (g.length + 1) g (g.length : Int) em = some ([], em) := by
  have h := pass_garbage g hg [] em 1
  simp only [List.append_nil, List.length_nil, Nat.cast_zero, add_zero] at h
  rw [h]
  rfl

/-- On a healthy stream — SOP-free leading garbage, a frame whose interior contains no
EOP-valued byte and does not end in a stuff byte, SOP-free trailing garbage — the
framing pass terminates with the deque drained, having handed exactly the one frame
`SOP :: interior ++ [EOP]` to `PdiReq.from_bytes` and the dispatcher. -/
theorem listener_good_stream (g1 mid g2 : List Nat)
    (hg1 : ∀ b ∈ g1, b ≠ PDI_SOP)
    (hmid : mid ≠ [])
    (hmidEop : ∀ b ∈ mid, b ≠ PDI_EOP)
    (hlast : mid.getD (mid.length - 1) 0 ≠ PDI_STF)
    (hg2 : ∀ b ∈ g2, b ≠ PDI_SOP) :
    runListenerPass (g1.length + g2.length + 2)
        (g1 ++ PDI_SOP :: (mid ++ PDI_EOP :: g2))
      = some ([], [PDI_SOP :: (mid ++ [PDI_EOP])]) := by
  unfold runListenerPass
  rw [show ((g1 ++ PDI_SOP :: (mid ++ PDI_EOP :: g2)).length : Int)
      = (g1.length : Int) + ((PDI_SOP :: (mid ++ PDI_EOP :: g2)).length : Int) from by
    push_cast [List.length_append]
    ring]
  rw [show g1.length + g2.length + 2 = g1.length + (g2.length + 2) from by ring]
  rw [pass_garbage g1 hg1 _ [] (g2.length + 2)]
  rw [show g2.length + 2 = (g2.length + 1) + 1 from rfl]
  have hL : (0 : Int) < ((PDI_SOP :: (mid ++ PDI_EOP :: g2)).length : Int) := by
    simp only [List.length_cons]
    omega
  rw [pass_frame mid g2 [] (g2.length + 1) _ hL hmid hmidEop hlast]
  rw [show ((PDI_SOP :: (mid ++ PDI_EOP :: g2)).length : Int) - ((mid.length : Int) + 2)
      = (g2.length : Int) from by
    simp only [List.length_cons, List.length_append]
    push_cast
    ring]
  rw [List.nil_append]
  exact pass_garbage_end g2 hg2 _

/-! ## `PdiDispatcher.run` publication (claim C4, src/pdi/pdi_listener.py lines 252-277) -/

/-- Modelled from the spec: `CommandScope` lives in a version of
`src/protocol/constants.py` that is not among the sources; section 3 and the glossary
list the scopes. -/
inductive CommandScope
  | engine
  | train
  | route
  | switch
  | acc
  | parameter
  | system
  deriving DecidableEq

/-- Modelled from the spec: the dispatch topics of section 3 — `(scope)`,
`(scope, deviceId)`, `(scope, deviceId, action)` tuples and the dedicated
`BROADCAST_TOPIC` (the latter defined in the missing `src/protocol/constants.py`).
The action slot is optional because `PdiDispatcher.run` publishes `cmd.action`, which is
Python `None` for requests without an action. -/
inductive PdiTopic
  | scopeOnly (s : CommandScope)
  | scopeId (s : CommandScope) (devId : Nat)
  | scopeIdAction (s : CommandScope) (devId : Nat) (action : Option Nat)
  | broadcast
  deriving DecidableEq

/-- The attributes of a parsed `PdiReq` that `PdiDispatcher.run` consults: whether it is
a `TmccReq`, and its `scope`, `tmcc_id` and `action` code. -/
structure PdiMsg where
  isTmcc : Bool
  scope : CommandScope
  tmccId : Nat
  action : Option Nat
  deriving DecidableEq

/-- The outward interactions of one `PdiDispatcher.run` iteration, in program order. -/
inductive DispatchEvent
  | tmccForward (m : PdiMsg)
  | publishTo (t : PdiTopic) (m : PdiMsg)
  | clientSync (m : PdiMsg)
  deriving DecidableEq

/-- The per-command body of `PdiDispatcher.run` (src/pdi/pdi_listener.py lines 262-273):
a `TmccReq` is offered to the TMCC `CommandDispatcher`, any other request is published to
the three scope topics in order; then — for BOTH kinds — the request is published to the
broadcast topic when `self._broadcasts` is set, and relayed to clients when
`self._client_port` is not `None`. -/
def dispatchOne (broadcasts clientPort : Bool) (m : PdiMsg) : List DispatchEvent :=
  (if m.isTmcc then
    [DispatchEvent.tmccForward m]
  else
    [DispatchEvent.publishTo (PdiTopic.scopeIdAction m.scope m.tmccId m.action) m,
     DispatchEvent.publishTo (PdiTopic.scopeId m.scope m.tmccId) m,
     DispatchEvent.publishTo (PdiTopic.scopeOnly m.scope) m])
  ++ (if broadcasts then [DispatchEvent.publishTo PdiTopic.broadcast m] else [])
  ++ (if clientPort then [DispatchEvent.clientSync m] else [])

/-- `PdiDispatcher.run` draining its queue: the interaction trace in emission order. -/
def dispatchRun (broadcasts clientPort : Bool) : List PdiMsg → List DispatchEvent
  | [] => []
  | m :: rest => dispatchOne broadcasts clientPort m ++ dispatchRun broadcasts clientPort rest

/-- The messages a subscriber of topic `t` observes in a trace, in order. -/
def observedBy (t : PdiTopic) (evs : List DispatchEvent) : List PdiMsg :=
  evs.filterMap (fun e =>
    match e with
    | DispatchEvent.publishTo u m => if u = t then some m else none
    | _ => none)

/-- A TMCC-wrapped request used as the concrete C4 counterexample input. -/
def tmccMsg0 : PdiMsg := ⟨true, CommandScope.system, 7, none⟩

/-- C4 counterexample: with broadcast mode enabled, a dequeued TMCC-wrapped request IS
published on the generic topic bus — to the broadcast topic — because the
`if self._broadcasts` publish sits outside the TMCC/other `else`; the claim says a
TMCC-wrapped request goes to the TMCC dispatcher instead of the generic topic bus. -/
theorem c4_tmcc_broadcast_publish_cex :
    DispatchEvent.publishTo PdiTopic.broadcast tmccMsg0
      ∈ dispatchRun true false [tmccMsg0] := by
  decide

/-- C4 (amended): requests are processed in dequeue order (the trace of a concatenation
is the concatenation of traces); a TMCC-wrapped request is forwarded to the TMCC-specific
dispatcher and is never published to any of the three scope topics, but it IS published
to the broadcast topic exactly when broadcast mode is enabled; every other request is
published, in order, to (scope, deviceId, action), (scope, deviceId), (scope), and then
to the broadcast topic exactly when broadcast mode is enabled; consequently a subscriber
of a scope-only topic observes exactly the non-TMCC requests of that scope in dequeue
order, and a subscriber of (scope, deviceId) observes exactly the non-TMCC requests with
that scope and device id, in dequeue order. -/
theorem c4_dispatch_amended :
    (∀ (bc cp : Bool) (ms₁ ms₂ : List PdiMsg),
      dispatchRun bc cp (ms₁ ++ ms₂) = dispatchRun bc cp ms₁ ++ dispatchRun bc cp ms₂)
  ∧ (∀ (bc cp : Bool) (m : PdiMsg), m.isTmcc = true →
      dispatchOne bc cp m
        = [DispatchEvent.tmccForward m]
          ++ (if bc then [DispatchEvent.publishTo PdiTopic.broadcast m] else [])
          ++ (if cp then [DispatchEvent.clientSync m] else []))
  ∧ (∀ (bc cp : Bool) (m : PdiMsg) (s : CommandScope) (d : Nat) (a : Option Nat),
      m.isTmcc = true →
      DispatchEvent.publishTo (PdiTopic.scopeIdAction s d a) m ∉ dispatchOne bc cp m
      ∧ DispatchEvent.publishTo (PdiTopic.scopeId s d) m ∉ dispatchOne bc cp m
      ∧ DispatchEvent.publishTo (PdiTopic.scopeOnly s) m ∉ dispatchOne bc cp m)
  ∧ (∀ (bc cp : Bool) (m : PdiMsg), m.isTmcc = false →
      dispatchOne bc cp m
        = [DispatchEvent.publishTo (PdiTopic.scopeIdAction m.scope m.tmccId m.action) m,
           DispatchEvent.publishTo (PdiTopic.scopeId m.scope m.tmccId) m,
           DispatchEvent.publishTo (PdiTopic.scopeOnly m.scope) m]
          ++ (if bc then [DispatchEvent.publishTo PdiTopic.broadcast m] else [])
          ++ (if cp then [DispatchEvent.clientSync m] else []))
  ∧ (∀ (bc cp : Bool) (ms : List PdiMsg) (s : CommandScope),
      observedBy (PdiTopic.scopeOnly s) (dispatchRun bc cp ms)
        = ms.filter (fun m => !m.isTmcc && m.scope == s))
  ∧ (∀ (bc cp : Bool) (ms : List PdiMsg) (s : CommandScope) (d : Nat),
      observedBy (PdiTopic.scopeId s d) (dispatchRun bc cp ms)
        = ms.filter (fun m => !m.isTmcc && m.scope == s && m.tmccId == d)) := by
  have happ : ∀ (bc cp : Bool) (ms₁ ms₂ : List PdiMsg),
      dispatchRun bc cp (ms₁ ++ ms₂) = dispatchRun bc cp ms₁ ++ dispatchRun bc cp ms₂ := by
    intro bc cp ms₁ ms₂
    induction ms₁ with
    | nil => rfl
    | cons m t ih => simp [dispatchRun, ih]
  have hobs : ∀ (t : PdiTopic) (evs₁ evs₂ : List DispatchEvent),
      observedBy t (evs₁ ++ evs₂) = observedBy t evs₁ ++ observedBy t evs₂ := by
    intro t evs₁ evs₂
    simp [observedBy]
  have hone : ∀ (bc cp : Bool) (m : PdiMsg) (s : CommandScope),
      observedBy (PdiTopic.scopeOnly s) (dispatchOne bc cp m)
        = if !m.isTmcc && m.scope == s then [m] else [] := by
    intro bc cp m s
    cases hm : m.isTmcc <;> cases bc <;> cases cp <;>
      by_cases hs : m.scope = s <;>
      simp [dispatchOne, observedBy, hm, hs]
  have hone2 : ∀ (bc cp : Bool) (m : PdiMsg) (s : CommandScope) (d : Nat),
      observedBy (PdiTopic.scopeId s d) (dispatchOne bc cp m)
        = if !m.isTmcc && m.scope == s && m.tmccId == d then [m] else [] := by
    intro bc cp m s d
    cases hm : m.isTmcc <;> cases bc <;> cases cp <;>
      by_cases hs : m.scope = s <;> by_cases hd : m.tmccId = d <;>
      simp [dispatchOne, observedBy, hm, hs, hd]
  refine ⟨happ, ?_, ?_, ?_, ?_, ?_⟩
  · intro bc cp m hm
    simp [dispatchOne, hm]
  · intro bc cp m s d a hm
    refine ⟨?_, ?_, ?_⟩ <;> cases bc <;> cases cp <;> simp [dispatchOne, hm]
  · intro bc cp m hm
    simp [dispatchOne, hm]
  · intro bc cp ms s
    induction ms with
    | nil => rfl
    | cons m t ih =>
      rw [show dispatchRun bc cp (m :: t)
            = dispatchOne bc cp m ++ dispatchRun bc cp t from rfl]
      rw [hobs, hone, ih, List.filter_cons]
      by_cases hms : (!m.isTmcc && m.scope == s) = true <;> simp [hms]
  · intro bc cp ms s d
    induction ms with
    | nil => rfl
    | cons m t ih =>
      rw [show dispatchRun bc cp (m :: t)
            = dispatchOne bc cp m ++ dispatchRun bc cp t from rfl]
      rw [hobs, hone2, ih, List.filter_cons]
      by_cases hms : (!m.isTmcc && m.scope == s && m.tmccId == d) = true <;> simp [hms]

/-- C4 witness: the amended theorem applied at concrete inputs — one TMCC-wrapped and
one plain request dispatched with broadcasts enabled. -/
theorem c4_dispatch_amended_witness :
    (tmccMsg0.isTmcc = true
      ∧ dispatchOne true false tmccMsg0
          = [DispatchEvent.tmccForward tmccMsg0,
             DispatchEvent.publishTo PdiTopic.broadcast tmccMsg0])
  ∧ (tmccMsg0.isTmcc = true
      ∧ DispatchEvent.publishTo (PdiTopic.scopeOnly CommandScope.system) tmccMsg0
          ∉ dispatchOne true false tmccMsg0)
  ∧ ((⟨false, CommandScope.switch, 2, some 5⟩ : PdiMsg).isTmcc = false
      ∧ dispatchOne false true ⟨false, CommandScope.switch, 2, some 5⟩
          = [DispatchEvent.publishTo (PdiTopic.scopeIdAction CommandScope.switch 2 (some 5))
               ⟨false, CommandScope.switch, 2, some 5⟩,
             DispatchEvent.publishTo (PdiTopic.scopeId CommandScope.switch 2)
               ⟨false, CommandScope.switch, 2, some 5⟩,
             DispatchEvent.publishTo (PdiTopic.scopeOnly CommandScope.switch)
               ⟨false, CommandScope.switch, 2, some 5⟩,
             DispatchEvent.clientSync ⟨false, CommandScope.switch, 2, some 5⟩]) :=
  ⟨⟨by decide, by
      have h := c4_dispatch_amended.2.1 true false tmccMsg0 (by decide)
      simpa using h⟩,
   ⟨by decide,
      (c4_dispatch_amended.2.2.1 true false tmccMsg0 CommandScope.system 7 none
        (by decide)).2.2⟩,
   ⟨by decide, by
      have h := c4_dispatch_amended.2.2.2.1 false true
        ⟨false, CommandScope.switch, 2, some 5⟩ (by decide)
      simpa using h⟩⟩

/-! ## `PdiDispatcher` channel registry (claim C5, src/pdi/pdi_listener.py lines 315-364)

The registry `self._channels` is a `defaultdict(Channel)` keyed by topic.  The `Channel`
class itself lives in `src/comm/command_listener.py`, which is not among the sources;
modelled from the spec (section 3: a channel is 1:1 with a subscriber set; section 4.4:
subscribe/unsubscribe are idempotent), a channel is its list of subscriber ids, subscribe
adds an absent subscriber and unsubscribe removes one. -/

/-- Association-list lookup, mirroring Python dict key access semantics (first and only
binding of a key). -/
def chLookup : List (PdiTopic × List Nat) → PdiTopic → Option (List Nat)
  | [], _ => none
  | (k, v) :: rest, t => if k = t then some v else chLookup rest t

/-- Replace the binding of `t` (or append one), mirroring assignment into the dict. -/
def chSet : List (PdiTopic × List Nat) → PdiTopic → List Nat → List (PdiTopic × List Nat)
  | [], t, v => [(t, v)]
  | (k, w) :: rest, t, v => if k = t then (t, v) :: rest else (k, w) :: chSet rest t v

/-- `del self._channels[channel]`. -/
def chDel : List (PdiTopic × List Nat) → PdiTopic → List (PdiTopic × List Nat)
  | [], _ => []
  | (k, w) :: rest, t => if k = t then rest else (k, w) :: chDel rest t

/-- `self._channels[key]` on the `defaultdict(Channel)`: installs a fresh empty channel
when the key is absent, and returns the registry together with the channel value. -/
def dictGet (chs : List (PdiTopic × List Nat)) (t : PdiTopic) :
    List (PdiTopic × List Nat) × List Nat :=
  match chLookup chs t with
  | some v => (chs, v)
  | none => (chs ++ [(t, [])], [])

/-- `Channel.subscribe`, modelled from the spec: add the subscriber if absent. -/
def subAdd (s : List Nat) (x : Nat) : List Nat := if x ∈ s then s else s ++ [x]

/-- `Channel.unsubscribe`, modelled from the spec: remove the subscriber. -/
def subRemove (s : List Nat) (x : Nat) : List Nat := s.filter (fun y => y != x)

/-- The registry and broadcast flag of a `PdiDispatcher`. -/
structure DispState where
  channels : List (PdiTopic × List Nat)
  broadcasts : Bool
  deriving DecidableEq

/-- A freshly initialised dispatcher: empty registry, broadcasts off. -/
def initDispState : DispState := ⟨[], false⟩

/-- `PdiDispatcher._make_channel` (src/pdi/pdi_listener.py lines 315-326). -/
def makeChannel (scope : CommandScope) (addr : Option Nat) (action : Option Nat) :
    PdiTopic :=
  match addr with
  | none => PdiTopic.scopeOnly scope
  | some ad =>
    match action with
    | none => PdiTopic.scopeId scope ad
    | some ac => PdiTopic.scopeIdAction scope ad (some ac)

/-- The `channel` argument of subscribe/unsubscribe: a scope or `BROADCAST_TOPIC`. -/
inductive TopicArg
  | scopedArg (s : CommandScope)
  | broadcastArg
  deriving DecidableEq

/-- `PdiDispatcher.subscribe_any`: the defaultdict access installs the broadcast channel
if absent, the subscriber is added, and the broadcast flag is set. -/
def subscribeAny (st : DispState) (sub : Nat) : DispState :=
  let r := dictGet st.channels PdiTopic.broadcast
  ⟨chSet r.1 PdiTopic.broadcast (subAdd r.2 sub), true⟩

/-- `PdiDispatcher.unsubscribe_any`: removes the subscriber from the broadcast channel
(installing an empty channel first when absent, via the defaultdict access) and clears
the broadcast flag when the channel ended up empty.  The channel itself is never removed
from the registry. -/
def unsubscribeAny (st : DispState) (sub : Nat) : DispState :=
  let r := dictGet st.channels PdiTopic.broadcast
  let s := subRemove r.2 sub
  ⟨chSet r.1 PdiTopic.broadcast s, if s = [] then false else st.broadcasts⟩

/-- `PdiDispatcher.subscribe` (src/pdi/pdi_listener.py lines 332-340). -/
def dispSubscribe (st : DispState) (sub : Nat) (channel : TopicArg)
    (addr action : Option Nat) : DispState :=
  match channel with
  | TopicArg.broadcastArg => subscribeAny st sub
  | TopicArg.scopedArg s =>
    let k := makeChannel s addr action
    let r := dictGet st.channels k
    ⟨chSet r.1 k (subAdd r.2 sub), st.broadcasts⟩

/-- `PdiDispatcher.unsubscribe` (src/pdi/pdi_listener.py lines 342-353): after removing
the subscriber, deletes the channel when its subscriber set became empty. -/
def dispUnsubscribe (st : DispState) (sub : Nat) (channel : TopicArg)
    (addr action : Option Nat) : DispState :=
  match channel with
  | TopicArg.broadcastArg => unsubscribeAny st sub
  | TopicArg.scopedArg s =>
    let k := makeChannel s addr action
    let r := dictGet st.channels k
    let sNew := subRemove r.2 sub
    let chs := chSet r.1 k sNew
    if sNew.length = 0 then ⟨chDel chs k, st.broadcasts⟩ else ⟨chs, st.broadcasts⟩

/-- `PdiDispatcher.publish` (src/pdi/pdi_listener.py lines 328-330): deliver to the
channel's subscribers only when the channel already exists (`if channel in
self._channels`); the registry is never modified. -/
def dispPublish (st : DispState) (t : PdiTopic) : DispState × List Nat :=
  match chLookup st.channels t with
  | some subs => (st, subs)
  | none => (st, [])

/-- The registry operations callable by arbitrary threads. -/
inductive DispOp
  | subscribeOp (sub : Nat) (ch : TopicArg) (addr action : Option Nat)
  | unsubscribeOp (sub : Nat) (ch : TopicArg) (addr action : Option Nat)
  | subscribeAnyOp (sub : Nat)
  | unsubscribeAnyOp (sub : Nat)
  | publishOp (t : PdiTopic)

/-- Apply one registry operation. -/
def applyOp (st : DispState) : DispOp → DispState
  | DispOp.subscribeOp sub ch a b => dispSubscribe st sub ch a b
  | DispOp.unsubscribeOp sub ch a b => dispUnsubscribe st sub ch a b
  | DispOp.subscribeAnyOp sub => subscribeAny st sub
  | DispOp.unsubscribeAnyOp sub => unsubscribeAny st sub
  | DispOp.publishOp t => (dispPublish st t).1

/-- Apply a sequence of registry operations to the fresh dispatcher state. -/
def applyOps (ops : List DispOp) : DispState := ops.foldl applyOp initDispState

/-- A healthy registry: topic keys are unique, and every non-broadcast channel has at
least one subscriber. -/
def GoodChannels (chs : List (PdiTopic × List Nat)) : Prop :=
  (chs.map Prod.fst).Nodup ∧ ∀ p ∈ chs, p.1 ≠ PdiTopic.broadcast → p.2 ≠ []

/-! ### Association-list lemmas -/

theorem chLookup_eq_none_iff (chs : List (PdiTopic × List Nat)) (t : PdiTopic) :
    chLookup chs t = none ↔ t ∉ chs.map Prod.fst := by
  induction chs with
  | nil => simp [chLookup]
  | cons p rest ih =>
    obtain ⟨k, v⟩ := p
    rw [List.map_cons]
    by_cases hk : k = t
    · simp [chLookup, hk]
    · rw [show chLookup ((k, v) :: rest) t = chLookup rest t from by
        simp [chLookup, hk]]
      rw [ih]
      constructor
      · intro h hmem
        rcases List.mem_cons.mp hmem with h1 | h1
        · exact hk h1.symm
        · exact h h1
      · intro h hmem
        exact h (List.mem_cons_of_mem _ hmem)

theorem chLookup_chSet_self (chs : List (PdiTopic × List Nat)) (t : PdiTopic)
    (v : List Nat) : chLookup (chSet chs t v) t = some v := by
  induction chs with
  | nil => simp [chSet, chLookup]
  | cons p rest ih =>
    obtain ⟨k, w⟩ := p
    by_cases hk : k = t <;> simp [chSet, chLookup, hk, ih]

theorem chSet_absent (chs : List (PdiTopic × List Nat)) (t : PdiTopic) (v : List Nat)
    (h : chLookup chs t = none) : chSet chs t v = chs ++ [(t, v)] := by
  induction chs with
  | nil => rfl
  | cons p rest ih =>
    obtain ⟨k, w⟩ := p
    by_cases hk : k = t
    · simp [chLookup, hk] at h
    · simp only [chLookup, hk, if_false] at h
      simp [chSet, hk, ih h]

theorem chSet_append_single (chs : List (PdiTopic × List Nat)) (t : PdiTopic)
    (w v : List Nat) (h : chLookup chs t = none) :
    chSet (chs ++ [(t, w)]) t v = chs ++ [(t, v)] := by
  induction chs with
  | nil => simp [chSet]
  | cons p rest ih =>
    obtain ⟨k, u⟩ := p
    by_cases hk : k = t
    · simp [chLookup, hk] at h
    · simp only [chLookup, hk, if_false] at h
      simp [chSet, hk, ih h]

theorem mem_chSet (chs : List (PdiTopic × List Nat)) (t : PdiTopic) (v : List Nat)
    (p : PdiTopic × List Nat) (hp : p ∈ chSet chs t v) : p = (t, v) ∨ p ∈ chs := by
  induction chs with
  | nil => simpa [chSet] using hp
  | cons q rest ih =>
    obtain ⟨k, w⟩ := q
    by_cases hk : k = t
    · simp only [chSet, hk, if_true] at hp
      rcases List.mem_cons.mp hp with h | h
      · exact Or.inl h
      · exact Or.inr (List.mem_cons_of_mem _ h)
    · simp only [chSet, hk, if_false] at hp
      rcases List.mem_cons.mp hp with h | h
      · exact Or.inr (h ▸ List.mem_cons_self _ _)
      · rcases ih h with h2 | h2
        · exact Or.inl h2
        · exact Or.inr (List.mem_cons_of_mem _ h2)

theorem mem_keys_chSet (chs : List (PdiTopic × List Nat)) (t : PdiTopic) (v : List Nat)
    (u : PdiTopic) (hu : u ∈ (chSet chs t v).map Prod.fst) :
    u ∈ chs.map Prod.fst ∨ u = t := by
  rcases List.mem_map.mp hu with ⟨p, hp, hpu⟩
  rcases mem_chSet chs t v p hp with h | h
  · exact Or.inr (by rw [← hpu, h])
  · exact Or.inl (hpu ▸ List.mem_map_of_mem Prod.fst h)

theorem nodup_chSet (chs : List (PdiTopic × List Nat)) (t : PdiTopic) (v : List Nat)
    (h : (chs.map Prod.fst).Nodup) : ((chSet chs t v).map Prod.fst).Nodup := by
  induction chs with
  | nil => simp [chSet]
  | cons p rest ih =>
    obtain ⟨k, w⟩ := p
    simp only [List.map_cons, List.nodup_cons] at h
    by_cases hk : k = t
    · simp only [chSet, hk, if_true, List.map_cons, List.nodup_cons]
      exact ⟨hk ▸ h.1, h.2⟩
    · simp only [chSet, hk, if_false, List.map_cons, List.nodup_cons]
      refine ⟨fun hmem => ?_, ih h.2⟩
      rcases mem_keys_chSet rest t v k hmem with h2 | h2
      · exact h.1 h2
      · exact hk h2

theorem chDel_keys_sublist (chs : List (PdiTopic × List Nat)) (t : PdiTopic) :
    ((chDel chs t).map Prod.fst).Sublist (chs.map Prod.fst) := by
  induction chs with
  | nil => simp [chDel]
  | cons p rest ih =>
    obtain ⟨k, w⟩ := p
    by_cases hk : k = t
    · simp only [chDel, hk, if_true, List.map_cons]
      exact (List.sublist_cons_self _ _)
    · simp only [chDel, hk, if_false, List.map_cons]
      exact List.Sublist.cons₂ _ ih

theorem mem_chDel (chs : List (PdiTopic × List Nat)) (t : PdiTopic)
    (p : PdiTopic × List Nat) (hp : p ∈ chDel chs t) : p ∈ chs := by
  induction chs with
  | nil => simp [chDel] at hp
  | cons q rest ih =>
    obtain ⟨k, w⟩ := q
    by_cases hk : k = t
    · simp only [chDel, hk, if_true] at hp
      exact List.mem_cons_of_mem _ hp
    · simp only [chDel, hk, if_false] at hp
      rcases List.mem_cons.mp hp with h | h
      · exact h ▸ List.mem_cons_self _ _
      · exact List.mem_cons_of_mem _ (ih h)

theorem chLookup_chDel_self (chs : List (PdiTopic × List Nat)) (t : PdiTopic)
    (h : (chs.map Prod.fst).Nodup) : chLookup (chDel chs t) t = none := by
  induction chs with
  | nil => rfl
  | cons p rest ih =>
    obtain ⟨k, w⟩ := p
    simp only [List.map_cons, List.nodup_cons] at h
    by_cases hk : k = t
    · simp only [chDel, hk, if_true]
      exact (chLookup_eq_none_iff rest t).mpr (hk ▸ h.1)
    · simp only [chDel, hk, if_false, chLookup, if_neg hk]
      exact ih h.2

theorem subAdd_ne_nil (s : List Nat) (x : Nat) : subAdd s x ≠ [] := by
  unfold subAdd
  by_cases hx : x ∈ s
  · simp only [hx, if_true]
    intro hs
    rw [hs] at hx
    simp at hx
  · simp [hx]

/-- The common update shape `self._channels[k].op(...)`: a defaultdict access followed by
writing back the new subscriber list preserves registry health, provided a non-broadcast
key is written a nonempty list. -/
theorem goodChannels_update (chs : List (PdiTopic × List Nat)) (k : PdiTopic)
    (v : List Nat) (hg : GoodChannels chs) (hv : k ≠ PdiTopic.broadcast → v ≠ []) :
    GoodChannels (chSet (dictGet chs k).1 k v) := by
  obtain ⟨hnd, hne⟩ := hg
  unfold dictGet
  cases hlk : chLookup chs k with
  | some s0 =>
    refine ⟨nodup_chSet chs k v hnd, fun p hp hpb => ?_⟩
    rcases mem_chSet chs k v p hp with h | h
    · rw [h]
      exact hv (by rw [h] at hpb; exact hpb)
    · exact hne p h hpb
  | none =>
    rw [chSet_append_single chs k [] v hlk]
    refine ⟨?_, fun p hp hpb => ?_⟩
    · rw [List.map_append]
      refine List.Nodup.append hnd (by simp) ?_
      intro u hu hu2
      simp only [List.map_cons, List.map_nil, List.mem_singleton] at hu2
      exact ((chLookup_eq_none_iff chs k).mp hlk) (hu2 ▸ hu)
    · rcases List.mem_append.mp hp with h | h
      · exact hne p h hpb
      · simp only [List.mem_singleton] at h
        rw [h]
        exact hv (by rw [h] at hpb; exact hpb)

theorem goodChannels_applyOp (st : DispState) (op : DispOp)
    (hg : GoodChannels st.channels) : GoodChannels (applyOp st op).channels := by
  obtain ⟨hnd, hne⟩ := hg
  cases op with
  | subscribeOp sub ch a b =>
    cases ch with
    | broadcastArg =>
      exact goodChannels_update st.channels PdiTopic.broadcast _ ⟨hnd, hne⟩
        (fun _ => subAdd_ne_nil _ _)
    | scopedArg s =>
      exact goodChannels_update st.channels (makeChannel s a b) _ ⟨hnd, hne⟩
        (fun _ => subAdd_ne_nil _ _)
  | unsubscribeOp sub ch a b =>
    cases ch with
    | broadcastArg =>
      refine goodChannels_update st.channels PdiTopic.broadcast _ ⟨hnd, hne⟩ ?_
      intro hb
      exact absurd rfl hb
    | scopedArg s =>
      show GoodChannels (dispUnsubscribe st sub (TopicArg.scopedArg s) a b).channels
      unfold dispUnsubscribe
      by_cases hempty :
          (subRemove (dictGet st.channels (makeChannel s a b)).2 sub).length = 0
      · simp only [hempty, if_true]
        have hXnd : ((chSet (dictGet st.channels (makeChannel s a b)).1 (makeChannel s a b)
            (subRemove (dictGet st.channels (makeChannel s a b)).2 sub)).map
              Prod.fst).Nodup := by
          unfold dictGet
          cases hlk : chLookup st.channels (makeChannel s a b) with
          | some s0 => exact nodup_chSet _ _ _ hnd
          | none =>
            refine nodup_chSet _ _ _ ?_
            rw [List.map_append]
            refine List.Nodup.append hnd (by simp) ?_
            intro u hu hu2
            simp only [List.map_cons, List.map_nil, List.mem_singleton] at hu2
            exact ((chLookup_eq_none_iff st.channels (makeChannel s a b)).mp hlk)
              (hu2 ▸ hu)
        refine ⟨List.Nodup.sublist (chDel_keys_sublist _ _) hXnd, fun p hp hpb => ?_⟩
        have hp2 := mem_chDel _ _ p hp
        have hpk : p.1 ≠ makeChannel s a b := by
          intro hk
          have h3 := chLookup_chDel_self
            (chSet (dictGet st.channels (makeChannel s a b)).1 (makeChannel s a b)
              (subRemove (dictGet st.channels (makeChannel s a b)).2 sub))
            (makeChannel s a b) hXnd
          have h4 := (chLookup_eq_none_iff _ _).mp h3
          have hmm := List.mem_map_of_mem Prod.fst hp
          rw [hk] at hmm
          exact h4 hmm
        rcases mem_chSet _ _ _ p hp2 with h | h
        · exact absurd (by rw [h]) hpk
        · unfold dictGet at h
          cases hlk : chLookup st.channels (makeChannel s a b) with
          | some s0 =>
            rw [hlk] at h
            exact hne p h hpb
          | none =>
            rw [hlk] at h
            rcases List.mem_append.mp h with h2 | h2
            · exact hne p h2 hpb
            · simp only [List.mem_singleton] at h2
              exact absurd (by rw [h2]) hpk
      · simp only [hempty, if_false]
        refine goodChannels_update st.channels (makeChannel s a b) _ ⟨hnd, hne⟩ ?_
        intro _ hnil
        exact hempty (by rw [hnil]; rfl)
  | subscribeAnyOp sub =>
    exact goodChannels_update st.channels PdiTopic.broadcast _ ⟨hnd, hne⟩
      (fun _ => subAdd_ne_nil _ _)
  | unsubscribeAnyOp sub =>
    refine goodChannels_update st.channels PdiTopic.broadcast _ ⟨hnd, hne⟩ ?_
    intro hb
    exact absurd rfl hb
  | publishOp t =>
    show GoodChannels ((dispPublish st t).1).channels
    unfold dispPublish
    cases chLookup st.channels t <;> exact ⟨hnd, hne⟩

/-! ### Claim C5 -/

/-- C5 counterexample: a single `unsubscribe_any` on a fresh dispatcher installs an
EMPTY broadcast channel (the defaultdict access creates it) and leaves it in the
registry; likewise `subscribe_any` followed by `unsubscribe_any` of the same subscriber
leaves the emptied broadcast channel registered.  So a topic exists that no subscribe
call created, and unsubscribing the last subscriber of the broadcast topic does not
remove it. -/
theorem c5_broadcast_channel_cex :
    (unsubscribeAny initDispState 0).channels = [(PdiTopic.broadcast, [])]
  ∧ (unsubscribeAny (subscribeAny initDispState 3) 3).channels
      = [(PdiTopic.broadcast, [])] := by
  decide

/-- C5 (amended): publishing to a topic not in the registry is a no-op that delivers to
nobody, and publish never modifies the dispatcher state; unsubscribing the last
subscriber of a NON-broadcast topic removes that topic from the registry; and in every
state reachable from a fresh dispatcher the registry keys are unique and every
non-broadcast topic present has a nonempty subscriber set (so it was created by a
subscribe call) — while the broadcast topic may remain registered with no subscribers,
because `unsubscribe_any` clears only the broadcast flag. -/
theorem c5_registry_amended :
    (∀ (st : DispState) (t : PdiTopic),
      chLookup st.channels t = none → dispPublish st t = (st, []))
  ∧ (∀ (st : DispState) (t : PdiTopic), (dispPublish st t).1 = st)
  ∧ (∀ (st : DispState) (sub : Nat) (s : CommandScope) (addr action : Option Nat),
      (st.channels.map Prod.fst).Nodup →
      subRemove (dictGet st.channels (makeChannel s addr action)).2 sub = [] →
      chLookup (dispUnsubscribe st sub (TopicArg.scopedArg s) addr action).channels
        (makeChannel s addr action) = none)
  ∧ (∀ ops : List DispOp, GoodChannels (applyOps ops).channels) := by
  refine ⟨?_, ?_, ?_, ?_⟩
  · intro st t h
    unfold dispPublish
    rw [h]
  · intro st t
    unfold dispPublish
    cases chLookup st.channels t <;> rfl
  · intro st sub s addr action hnd hrem
    unfold dispUnsubscribe
    simp only [hrem, List.length_nil]
    rw [if_pos trivial]
    have hXnd : ((chSet (dictGet st.channels (makeChannel s addr action)).1
        (makeChannel s addr action) []).map Prod.fst).Nodup := by
      unfold dictGet
      cases hlk : chLookup st.channels (makeChannel s addr action) with
      | some s0 => exact nodup_chSet _ _ _ hnd
      | none =>
        refine nodup_chSet _ _ _ ?_
        rw [List.map_append]
        refine List.Nodup.append hnd (by simp) ?_
        intro u hu hu2
        simp only [List.map_cons, List.map_nil, List.mem_singleton] at hu2
        exact ((chLookup_eq_none_iff st.channels (makeChannel s addr action)).mp hlk)
          (hu2 ▸ hu)
    exact chLookup_chDel_self _ _ hXnd
  · intro ops
    have step : ∀ (l : List DispOp) (st : DispState), GoodChannels st.channels →
        GoodChannels (l.foldl applyOp st).channels := by
      intro l
      induction l with
      | nil => intro st h; exact h
      | cons op rest ih =>
        intro st h
        exact ih (applyOp st op) (goodChannels_applyOp st op h)
    refine step ops initDispState ⟨by simp [initDispState], ?_⟩
    intro p hp
    simp [initDispState] at hp

/-- C5 witness: the amended theorem applied at concrete inputs — publish to a topic
absent from a fresh registry, removal of the sole subscriber of a switch-scope topic,
and the reachable-state invariant after one subscribe call. -/
theorem c5_registry_amended_witness :
    (chLookup initDispState.channels (PdiTopic.scopeOnly CommandScope.engine) = none
      ∧ dispPublish initDispState (PdiTopic.scopeOnly CommandScope.engine)
          = (initDispState, []))
  ∧ ((dispSubscribe initDispState 4 (TopicArg.scopedArg CommandScope.switch) none none
        |>.channels.map Prod.fst).Nodup
      ∧ subRemove (dictGet (dispSubscribe initDispState 4
            (TopicArg.scopedArg CommandScope.switch) none none).channels
            (makeChannel CommandScope.switch none none)).2 4 = []
      ∧ chLookup (dispUnsubscribe
            (dispSubscribe initDispState 4 (TopicArg.scopedArg CommandScope.switch) none none)
            4 (TopicArg.scopedArg CommandScope.switch) none none).channels
          (makeChannel CommandScope.switch none none) = none)
  ∧ GoodChannels (applyOps
      [DispOp.subscribeOp 1 (TopicArg.scopedArg CommandScope.engine) none none]).channels :=
  ⟨⟨by decide,
    c5_registry_amended.1 initDispState (PdiTopic.scopeOnly CommandScope.engine)
      (by decide)⟩,
   ⟨by decide, by decide,
    c5_registry_amended.2.2.1
      (dispSubscribe initDispState 4 (TopicArg.scopedArg CommandScope.switch) none none)
      4 CommandScope.switch none none (by decide) (by decide)⟩,
   c5_registry_amended.2.2.2
     [DispOp.subscribeOp 1 (TopicArg.scopedArg CommandScope.engine) none none]⟩

/-! ## `EngineOptionEnum.apply_data` (claims C6 and C7, src/protocol/constants.py) -/

/-- `math.ceil(math.log2(n))` as exact integer arithmetic, via the recurrence
`ceil(log2 n) = 1 + ceil(log2(ceil(n / 2)))` for `n > 1` (the float computation in
`EngineOptionEnum.__init__` is exact on every value in the catalog); fuel-indexed to stay
structurally recursive, `n` steps always suffice. -/
def ceilLog2Aux : Nat → Nat → Nat
  | 0, _ => 0
  | fuel + 1, n => if n ≤ 1 then 0 else ceilLog2Aux fuel ((n + 1) / 2) + 1

/-- See `ceilLog2Aux`. -/
def ceilLog2 (n : Nat) : Nat := ceilLog2Aux n n

/-- The distinct `ValueError`s raised by `EngineOptionEnum.apply_data`. -/
inductive ApplyDataErr
  | dataRequired
  | notInMap
  | notInRange
  | maskOverflow
  deriving DecidableEq

/-- `EngineOptionEnum` (src/protocol/constants.py lines 197-207): the fixed opcode bits,
the contiguous operand range `d_min..d_max`, and the optional explicit value-to-code
map.  Operand values are `Int` because the relative-speed domain is signed. -/
structure EngineOptionEnum where
  commandOp : Nat
  dMin : Int
  dMax : Nat
  dMap : Option (List (Int × Nat))
  deriving DecidableEq

/-- `self._d_bits` as computed by `EngineOptionEnum.__init__` (lines 203-207): from
`d_max` when nonzero, else from the largest value of the (nonempty) map, else 0. -/
def EngineOptionEnum.dBits (e : EngineOptionEnum) : Nat :=
  if e.dMax ≠ 0 then ceilLog2 e.dMax
  else
    match e.dMap with
    | some m => ceilLog2 (m.foldl (fun a p => max a p.2) 0)
    | none => 0

/-- An option with neither a range nor a map (`EngineOptionEnum(cmd)`). -/
def mkOpt (op : Nat) : EngineOptionEnum := ⟨op, 0, 0, none⟩

/-- An option with a contiguous range (`EngineOptionEnum(cmd, d_max=n)`). -/
def mkOptMax (op dMax : Nat) : EngineOptionEnum := ⟨op, 0, dMax, none⟩

/-- An option with an explicit value map (`EngineOptionEnum(cmd, d_map=m)`). -/
def mkOptMap (op : Nat) (m : List (Int × Nat)) : EngineOptionEnum := ⟨op, 0, 0, some m⟩

/-- Python `data in d_map` followed by `d_map[data]`, over the insertion-ordered pairs. -/
def mapLookup : List (Int × Nat) → Int → Option Nat
  | [], _ => none
  | (k, v) :: rest, d => if k = d then some v else mapLookup rest d

/-- `EngineOptionEnum.apply_data` (src/protocol/constants.py lines 220-236).  The
`Except` models the raised `ValueError`s.  Mirrors the source order: missing-data check,
zero-bit early return, map lookup (the catalog's maps are nonempty, so `elif self._d_map`
is truthy exactly when a map is present), range check, then the bit-mask re-check
`data & (2 ** d_bits - 1)` (at which point the earlier checks guarantee the value is a
nonnegative integer, so `Int.toNat` is exact) and the final OR into the opcode. -/
def applyData (e : EngineOptionEnum) (data : Option Int) : Except ApplyDataErr Nat :=
  if e.dBits ≠ 0 ∧ data = none then Except.error ApplyDataErr.dataRequired
  else if e.dBits = 0 then Except.ok e.commandOp
  else
    match data with
    | none => Except.error ApplyDataErr.dataRequired
    | some d =>
      let mapped : Except ApplyDataErr Nat :=
        match e.dMap with
        | some m =>
          match mapLookup m d with
          | some v => Except.ok v
          | none => Except.error ApplyDataErr.notInMap
        | none =>
          if d < e.dMin ∨ d > (e.dMax : Int) then Except.error ApplyDataErr.notInRange
          else Except.ok d.toNat
      match mapped with
      | Except.error err => Except.error err
      | Except.ok v =>
        let filtered := v &&& (2 ^ e.dBits - 1)
        if v ≠ filtered then Except.error ApplyDataErr.maskOverflow
        else Except.ok (v ||| e.commandOp)

/-- `RELATIVE_SPEED_MAP = dict(zip(range(-5, 6), range(0, 11)))`
(src/protocol/constants.py line 161). -/
def RELATIVE_SPEED_MAP : List (Int × Nat) :=
  (List.range 11).map (fun i => (Int.ofNat i - 5, i))

/-- `TMCC1_ENG_ABSOLUTE_SPEED_COMMAND` (line 94): speed 0-31 in the last 5 bits. -/
def TMCC1_ENG_ABSOLUTE_SPEED_COMMAND : Nat := 0x0060

/-- `TMCC1_ENG_RELATIVE_SPEED_COMMAND` (line 95). -/
def TMCC1_ENG_RELATIVE_SPEED_COMMAND : Nat := 0x0040

/-- `TMCC2_SET_ABSOLUTE_SPEED_COMMAND` (line 173): speed 0-199 in the last byte. -/
def TMCC2_SET_ABSOLUTE_SPEED_COMMAND : Nat := 0x0000

/-- `TMCC2_SET_RELATIVE_SPEED_COMMAND` (line 194). -/
def TMCC2_SET_RELATIVE_SPEED_COMMAND : Nat := 0x0140

/-- `TMCC1EngineOption.ABSOLUTE_SPEED` (line 255). -/
def tmcc1AbsoluteSpeed : EngineOptionEnum :=
  mkOptMax TMCC1_ENG_ABSOLUTE_SPEED_COMMAND 31

/-- `TMCC2EngineOption.ABSOLUTE_SPEED` (line 284). -/
def tmcc2AbsoluteSpeed : EngineOptionEnum :=
  mkOptMax TMCC2_SET_ABSOLUTE_SPEED_COMMAND 199

/-- `TMCC1EngineOption.RELATIVE_SPEED` (line 256). -/
def tmcc1RelativeSpeed : EngineOptionEnum :=
  mkOptMap TMCC1_ENG_RELATIVE_SPEED_COMMAND RELATIVE_SPEED_MAP

/-- `TMCC2EngineOption.RELATIVE_SPEED` (line 285). -/
def tmcc2RelativeSpeed : EngineOptionEnum :=
  mkOptMap TMCC2_SET_RELATIVE_SPEED_COMMAND RELATIVE_SPEED_MAP

/-! ### `apply_data` characterisations -/

theorem applyData_range_eq (e : EngineOptionEnum) (v : Int) (n : Nat)
    (hmap : e.dMap = none) (hb : e.dBits = n) (hn : n ≠ 0) (hmin : e.dMin = 0)
    (hlt : e.dMax < 2 ^ n) :
    applyData e (some v)
      = if 0 ≤ v ∧ v ≤ (e.dMax : Int) then Except.ok (v.toNat ||| e.commandOp)
        else Except.error ApplyDataErr.notInRange := by
  unfold applyData
  rw [hb, hmap, hmin]
  rw [if_neg (by simp), if_neg hn]
  dsimp only
  by_cases h : 0 ≤ v ∧ v ≤ (e.dMax : Int)
  · rw [if_neg (show ¬(v < 0 ∨ v > (e.dMax : Int)) from by omega)]
    dsimp only
    have hand : v.toNat &&& (2 ^ n - 1) = v.toNat := by
      rw [Nat.and_pow_two_sub_one_eq_mod, Nat.mod_eq_of_lt (by omega)]
    rw [if_neg (show ¬(v.toNat ≠ v.toNat &&& (2 ^ n - 1)) from by rw [hand]; simp),
      if_pos h]
  · rw [if_pos (show v < 0 ∨ v > (e.dMax : Int) from by omega), if_neg h]

theorem mapLookup_eq_none (m : List (Int × Nat)) (d : Int) (h : ∀ p ∈ m, p.1 ≠ d) :
    mapLookup m d = none := by
  induction m with
  | nil => rfl
  | cons p rest ih =>
    obtain ⟨k, w⟩ := p
    rw [show mapLookup ((k, w) :: rest) d = if k = d then some w else mapLookup rest d
      from rfl]
    rw [if_neg (h (k, w) (List.mem_cons_self _ _))]
    exact ih (fun q hq => h q (List.mem_cons_of_mem _ hq))

theorem mapLookup_relative (v : Int) :
    mapLookup RELATIVE_SPEED_MAP v
      = if -5 ≤ v ∧ v ≤ 5 then some (v + 5).toNat else none := by
  have hlit : RELATIVE_SPEED_MAP
      = [(-5, 0), (-4, 1), (-3, 2), (-2, 3), (-1, 4), (0, 5),
         (1, 6), (2, 7), (3, 8), (4, 9), (5, 10)] := by decide
  rw [hlit]
  by_cases h : -5 ≤ v ∧ v ≤ 5
  · rw [if_pos h]
    obtain ⟨h1, h2⟩ := h
    interval_cases v <;> decide
  · rw [if_neg h]
    apply mapLookup_eq_none
    intro p hp
    fin_cases hp <;> (dsimp only ; omega)

theorem applyData_relative_eq (e : EngineOptionEnum) (v : Int)
    (hmap : e.dMap = some RELATIVE_SPEED_MAP) (hb : e.dBits = 4) :
    applyData e (some v)
      = if -5 ≤ v ∧ v ≤ 5 then Except.ok ((v + 5).toNat ||| e.commandOp)
        else Except.error ApplyDataErr.notInMap := by
  unfold applyData
  rw [hb, hmap]
  rw [if_neg (by simp), if_neg (by norm_num)]
  dsimp only
  rw [mapLookup_relative v]
  by_cases h : -5 ≤ v ∧ v ≤ 5
  · rw [if_pos h]
    dsimp only
    have hand : (v + 5).toNat &&& (2 ^ 4 - 1) = (v + 5).toNat := by
      rw [Nat.and_pow_two_sub_one_eq_mod, Nat.mod_eq_of_lt (by omega)]
    rw [if_neg (show ¬((v + 5).toNat ≠ (v + 5).toNat &&& (2 ^ 4 - 1)) from by
      rw [hand]; simp), if_pos h]
  · rw [if_neg h, if_neg h]

/-! ### Claims C6 and C7 -/

/-- C6: encoding TMCC2 ABSOLUTE_SPEED with operand 45 returns the opcode `0x0000` OR'd
with 45, i.e. `0x002D`; the TMCC1 engine absolute-speed domain is exactly 0-31 and the
TMCC2 one exactly 0-199, each dialect's `apply_data` accepting exactly its own range and
raising a value error outside it — in particular 45 is accepted by TMCC2 and rejected by
TMCC1. -/
theorem c6_absolute_speed_domains :
    applyData tmcc2AbsoluteSpeed (some 45) = Except.ok 0x2D
  ∧ applyData tmcc1AbsoluteSpeed (some 45) = Except.error ApplyDataErr.notInRange
  ∧ (∀ v : Int, applyData tmcc1AbsoluteSpeed (some v)
      = if 0 ≤ v ∧ v ≤ 31
        then Except.ok (v.toNat ||| TMCC1_ENG_ABSOLUTE_SPEED_COMMAND)
        else Except.error ApplyDataErr.notInRange)
  ∧ (∀ v : Int, applyData tmcc2AbsoluteSpeed (some v)
      = if 0 ≤ v ∧ v ≤ 199
        then Except.ok (v.toNat ||| TMCC2_SET_ABSOLUTE_SPEED_COMMAND)
        else Except.error ApplyDataErr.notInRange) := by
  refine ⟨by rfl, by rfl, ?_, ?_⟩
  · intro v
    exact applyData_range_eq tmcc1AbsoluteSpeed v 5 rfl (by decide) (by decide) rfl
      (by decide)
  · intro v
    exact applyData_range_eq tmcc2AbsoluteSpeed v 8 rfl (by decide) (by decide) rfl
      (by decide)

/-- C7: for both dialects, encoding RELATIVE_SPEED with operand v in -5..+5 ORs the
mapped code v+5 (the explicit offset mapping, not two's-complement) into the fixed
relative-speed opcode, and raises a value error for every v outside -5..+5. -/
theorem c7_relative_speed_mapping :
    (∀ v : Int, applyData tmcc1RelativeSpeed (some v)
      = if -5 ≤ v ∧ v ≤ 5
        then Except.ok ((v + 5).toNat ||| TMCC1_ENG_RELATIVE_SPEED_COMMAND)
        else Except.error ApplyDataErr.notInMap)
  ∧ (∀ v : Int, applyData tmcc2RelativeSpeed (some v)
      = if -5 ≤ v ∧ v ≤ 5
        then Except.ok ((v + 5).toNat ||| TMCC2_SET_RELATIVE_SPEED_COMMAND)
        else Except.error ApplyDataErr.notInMap) := by
  constructor
  · intro v
    exact applyData_relative_eq tmcc1RelativeSpeed v rfl (by decide)
  · intro v
    exact applyData_relative_eq tmcc2RelativeSpeed v rfl (by decide)

/-! ## Component-state store (claim C9, src/db/component_state.py) -/

/-- The result of running a Python callable: a returned value or a raised exception. -/
inductive PyResult (α : Type)
  | val (a : α)
  | raised
  deriving DecidableEq

/-- The concrete `ComponentState` subclasses installed in `_SCOPE_TO_STATE_MAP`. -/
inductive StateKind
  | switchKind
  | accessoryKind
  | engineKind
  deriving DecidableEq

/-- A freshly constructed state record: its subclass and the scope passed to the
constructor (`ComponentState.__init__` stores the scope; address and command start
unset). -/
structure ComponentStateRec where
  kind : StateKind
  scope : CommandScope
  deriving DecidableEq

/-- `_SCOPE_TO_STATE_MAP` (src/db/component_state.py lines 141-146): SWITCH, ACC, ENGINE
and TRAIN are mapped; every other scope is absent. -/
def scopeToStateMap : CommandScope → Option StateKind
  | CommandScope.switch => some StateKind.switchKind
  | CommandScope.acc => some StateKind.accessoryKind
  | CommandScope.engine => some StateKind.engineKind
  | CommandScope.train => some StateKind.engineKind
  | _ => none

/-- The scope validation performed by `SwitchState.__init__`, `AccessoryState.__init__`
and `EngineState.__init__` (they raise `ValueError` on a scope that does not match the
subclass). -/
def mkComponentState (k : StateKind) (scope : CommandScope) :
    PyResult ComponentStateRec :=
  match k with
  | StateKind.switchKind =>
    if scope = CommandScope.switch then PyResult.val ⟨k, scope⟩ else PyResult.raised
  | StateKind.accessoryKind =>
    if scope = CommandScope.acc then PyResult.val ⟨k, scope⟩ else PyResult.raised
  | StateKind.engineKind =>
    if scope = CommandScope.engine ∨ scope = CommandScope.train then PyResult.val ⟨k, scope⟩
    else PyResult.raised

/-- `ComponentStateDict.__missing__` (src/db/component_state.py lines 155-162): for a
mapped scope it calls `_SCOPE_TO_STATE_MAP[key](key)`, installs the record under the key
and returns it; for an unmapped scope control falls off the end of the method, so Python
returns `None` — modelled as `PyResult.val none` — and nothing is installed and nothing
is raised. -/
def componentStateMissing (entries : List (CommandScope × ComponentStateRec))
    (key : CommandScope) :
    List (CommandScope × ComponentStateRec) × PyResult (Option ComponentStateRec) :=
  match scopeToStateMap key with
  | some k =>
    match mkComponentState k key with
    | PyResult.val v => (entries ++ [(key, v)], PyResult.val (some v))
    | PyResult.raised => (entries, PyResult.raised)
  | none => (entries, PyResult.val none)

/-- C9 counterexample: a missing-key access for the unmapped scope ROUTE on an empty
store returns Python `None` (no exception is raised, nothing is installed), refuting the
claim that an unmapped scope is a hard construction failure propagated to the caller. -/
theorem c9_unmapped_scope_cex :
    componentStateMissing [] CommandScope.route = ([], PyResult.val none)
  ∧ componentStateMissing [] CommandScope.route ≠ ([], PyResult.raised) := by
  decide

/-- C9 (amended): for a scope in `_SCOPE_TO_STATE_MAP`, the missing-key access
constructs the mapped record for that scope, installs it, and returns it; for an
unmapped scope `__missing__` silently returns `None` without installing anything — not
an error. -/
theorem c9_missing_key_amended :
    (∀ (entries : List (CommandScope × ComponentStateRec)) (key : CommandScope)
        (k : StateKind), scopeToStateMap key = some k →
      componentStateMissing entries key
        = (entries ++ [(key, ⟨k, key⟩)], PyResult.val (some ⟨k, key⟩)))
  ∧ (∀ (entries : List (CommandScope × ComponentStateRec)) (key : CommandScope),
      scopeToStateMap key = none →
      componentStateMissing entries key = (entries, PyResult.val none)) := by
  constructor
  · intro entries key k hk
    cases key <;> simp [scopeToStateMap] at hk <;>
      rw [← hk] <;> rfl
  · intro entries key hk
    unfold componentStateMissing
    rw [hk]

/-- C9 witness: the amended theorem applied at the mapped scope SWITCH and the unmapped
scope SYSTEM, on an empty store. -/
theorem c9_missing_key_amended_witness :
    (scopeToStateMap CommandScope.switch = some StateKind.switchKind
      ∧ componentStateMissing [] CommandScope.switch
          = ([(CommandScope.switch, ⟨StateKind.switchKind, CommandScope.switch⟩)],
             PyResult.val (some ⟨StateKind.switchKind, CommandScope.switch⟩)))
  ∧ (scopeToStateMap CommandScope.system = none
      ∧ componentStateMissing [] CommandScope.system = ([], PyResult.val none)) :=
  ⟨⟨by decide, by
      have h := c9_missing_key_amended.1 [] CommandScope.switch StateKind.switchKind
        (by decide)
      simpa using h⟩,
   ⟨by decide, c9_missing_key_amended.2 [] CommandScope.system (by decide)⟩⟩

/-! ## Proxy-request server (claim C10, src/comm/enqueue_proxy_requests.py) -/

/-- `REGISTER_REQUEST = int(0xff).to_bytes(1) * 6` (line 11). -/
def REGISTER_REQUEST : List Nat := List.replicate 6 0xFF

/-- `SYNC_STATE_REQUEST = int(0xfff0).to_bytes(2, byteorder='big') * 3` (line 12). -/
def SYNC_STATE_REQUEST : List Nat := (List.replicate 3 [0xFF, 0xF0]).flatten

/-- `str.encode("ack")` — the ASCII bytes of the three-character string "ack". -/
def ackReply : List Nat := [0x61, 0x63, 0x6B]

/-- What one `EnqueueHandler.handle` invocation did: the ack replies sent (one per
nonempty `recv`), whether the client address was noted, and the byte stream enqueued on
the transmit queue (`none` when a register/sync branch was taken instead). -/
structure HandleResult where
  acks : List (List Nat)
  notedClient : Bool
  enqueued : Option (List Nat)
  deriving DecidableEq

/-- `EnqueueHandler.handle` (src/comm/enqueue_proxy_requests.py lines 124-139) for a
connection whose successive nonempty `recv(128)` chunks are `chunks`, the connection
then closing (the final `recv` returns the empty byte string and breaks the loop).
Each nonempty chunk is appended to `byte_stream` and answered with `sendall(b"ack")`.
After the loop the Python variable `data` holds that final EMPTY chunk, so the
`data == register_request` and `data == sync_state_request` comparisons are made against
the empty byte string, never against the accumulated stream. -/
def enqueueHandle (chunks : List (List Nat)) : HandleResult :=
  let byteStream := chunks.flatten
  let finalData : List Nat := []
  ⟨chunks.map (fun _ => ackReply),
   true,
   if finalData = REGISTER_REQUEST then none
   else if finalData = SYNC_STATE_REQUEST then none
   else some byteStream⟩

/-- C10 counterexample: the acknowledgment literal `b"ack"` is three bytes, not the
claimed two; and a client that sends exactly the 6-byte register handshake and closes
has its bytes enqueued on the local transmit queue — the handshake is not recognised,
because the post-loop comparison uses the final empty chunk. -/
theorem c10_ack_and_register_cex :
    ackReply.length ≠ 2
  ∧ (enqueueHandle [REGISTER_REQUEST]).enqueued = some REGISTER_REQUEST
  ∧ (enqueueHandle [SYNC_STATE_REQUEST]).enqueued = some SYNC_STATE_REQUEST := by
  decide

/-- C10 (amended): the register constant is the fixed 6-byte all-0xFF sequence and the
sync-state constant is 0xFFF0 repeated three times in big-endian 2-byte units, and the
server replies to every nonempty receive with the literal acknowledgment `b"ack"` —
three bytes; but because the handler compares the register/sync constants against the
empty final `recv` chunk rather than the accumulated stream, EVERY received byte
sequence, the register and sync sequences included, is forwarded to the local transmit
queue. -/
theorem c10_proxy_protocol_amended :
    REGISTER_REQUEST = [0xFF, 0xFF, 0xFF, 0xFF, 0xFF, 0xFF]
  ∧ SYNC_STATE_REQUEST = [0xFF, 0xF0, 0xFF, 0xF0, 0xFF, 0xF0]
  ∧ ackReply.length = 3
  ∧ (∀ chunks : List (List Nat),
      enqueueHandle chunks = ⟨chunks.map (fun _ => ackReply), true, some chunks.flatten⟩) := by
  refine ⟨by decide, by decide, by decide, ?_⟩
  intro chunks
  unfold enqueueHandle
  dsimp only
  rw [if_neg (by decide), if_neg (by decide)]

end LionelPY
